import Mathlib

/-!
Verification of the PutObject test-harness core of `s3verify`
(`put-object.go`): request construction (`newPutObjectReq`), the
three-stage response verification pipeline (`putObjectVerify` with
`verifyHeaderPutObject`, `verifyStatusPutObject`, `verifyBodyPutObject`)
and the two orchestration entry points (`mainPutObjectPrepared`,
`mainPutObjectUnPrepared`) together with the global object registry
`s3verifyObjects`.

Shallow embedding conventions:
* Go byte slices are `List Nat` (each element one byte value).
* `bytes.Reader` is `ByteReader` (the backing bytes plus a cursor).
* `http.Header` is an association list `Headers`; the keys set by this
  file are already in canonical MIME form, so `headerSet` replaces by
  exact key, mirroring `Header.Set`'s last-write-wins behaviour.
* Go's `(T, error)` returns are `Except String T`.
* An `http.Response` body is `RespBody`: `stream = none` models a nil
  `io.ReadCloser` interface value; `pos` is the read cursor and
  `fullReads` counts completed `ioutil.ReadAll` passes, so that
  "reads the body at most once" is a statement about `fullReads`.
* A Go runtime panic (nil-interface method call, slice index out of
  range) is the explicit outcome `panicked`; it aborts the enclosing
  call rather than returning an error.
* External collaborators that live in other files of the repository
  (`computeHash`, `verifyStandardHeaders`, `config.execRequest`,
  `s3verifyBuckets`, `randString`, `appUserAgent`) are either modelled
  from the spec (doc comments say so) or passed as explicit parameters.
-/

/-- Go `md5.Sum` / `sha256.Sum256` are external hash primitives; the
claims only relate the headers to "the digest of P", so the two digest
algorithms are carried as an explicit pair of functions on byte lists. -/
structure HashAlg where
  md5 : List Nat → List Nat
  sha256 : List Nat → List Nat

/-- A `bytes.Reader`: the backing byte slice plus the read cursor. -/
structure ByteReader where
  data : List Nat
  pos : Nat
  deriving DecidableEq, Inhabited

/-- Go `bytes.NewReader`: a reader over `d` positioned at its start. -/
def bytesNewReader (d : List Nat) : ByteReader := ⟨d, 0⟩

/-- Reading a `ByteReader` to exhaustion from its current position. -/
def readAllReader (r : ByteReader) : List Nat := r.data.drop r.pos

/-- Response/request headers: an association list of name/value pairs. -/
abbrev Headers := List (String × String)

/-- Go `http.Header.Set` for keys already in canonical MIME form:
replace the existing entry for the key, or append a new one. -/
def headerSet (hs : Headers) (k v : String) : Headers :=
  match hs with
  | [] => [(k, v)]
  | (k', v') :: rest => if k' = k then (k, v) :: rest else (k', v') :: headerSet rest k v

/-- Go `http.Header.Get`: the first value stored under the key. -/
def headerGet (hs : Headers) (k : String) : Option String :=
  match hs with
  | [] => none
  | (k', v') :: rest => if k' = k then some v' else headerGet rest k

/-- Character `n` of the standard base64 alphabet. -/
def base64Char (n : Nat) : Char :=
  "ABCDEFGHIJKLMNOPQRSTUVWXYZabcdefghijklmnopqrstuvwxyz0123456789+/".data.getD n 'A'

/-- Go `base64.StdEncoding.EncodeToString`: standard base64 with `=`
padding, three input bytes per four output characters. -/
def base64Encode : List Nat → String
  | [] => ""
  | [a] =>
    ⟨[base64Char (a / 4), base64Char (a % 4 * 16), '=', '=']⟩
  | [a, b] =>
    ⟨[base64Char (a / 4), base64Char (a % 4 * 16 + b / 16), base64Char (b % 16 * 4), '=']⟩
  | a :: b :: c :: rest =>
    (⟨[base64Char (a / 4), base64Char (a % 4 * 16 + b / 16),
       base64Char (b % 16 * 4 + c / 64), base64Char (c % 64)]⟩ : String) ++ base64Encode rest

/-- Hexadecimal digit `n` in lowercase, as produced by Go `encoding/hex`. -/
def hexChar (n : Nat) : Char :=
  "0123456789abcdef".data.getD n '0'

/-- Go `hex.EncodeToString`: two lowercase hex characters per byte. -/
def hexEncode (bs : List Nat) : String :=
  ⟨(bs.map fun b => [hexChar (b / 16), hexChar (b % 16)]).flatten⟩

/-- Bytes reinterpreted as a string, as in Go `string(body)`. -/
def bytesToString (bs : List Nat) : String :=
  ⟨bs.map Char.ofNat⟩

/-- Modelled from the spec: `appUserAgent` is defined in another file of
the repository; §4.2 only requires "a client-identification header set
to a fixed value", so any fixed string is faithful. -/
def appUserAgent : String := "s3verify"

/-- Modelled from the spec: `computeHash` lives in another file of the
repository. Per §4.1 the Hasher reads the payload to exhaustion exactly
once, returns both digests computed over those bytes together with the
exact byte count, and "leaves the payload re-readable for subsequent
consumption (e.g., by resetting a cursor)"; a read of an in-memory
`bytes.Reader` cannot fail, so the error branch is never taken. The
reader's post-state is returned explicitly. -/
def computeHash (h : HashAlg) (r : ByteReader) :
    Except String (List Nat × List Nat × Nat × ByteReader) :=
  let content := readAllReader r
  .ok (h.md5 content, h.sha256 content, content.length, ⟨r.data, 0⟩)

/-- The `Request` struct, fields as used by `put-object.go` and the
spec's data model: identifiers, custom headers, declared content length
and the body stream. -/
structure Request where
  bucketName : String
  objectName : String
  customHeader : Headers
  contentLength : Nat
  contentBody : ByteReader
  deriving Inhabited

/-- `newPutObjectReq` from `put-object.go`: build the PUT request,
computing both digests of `objectData` via `computeHash`, declaring
them in the `Content-MD5` (base64) and `X-Amz-Content-Sha256` (hex)
headers, recording the measured content length and attaching the
(reset) reader as the body. No validation of the names is performed. -/
def newPutObjectReq (h : HashAlg) (bucketName objectName : String)
    (objectData : List Nat) : Except String Request :=
  let reader := bytesNewReader objectData
  match computeHash h reader with
  | .error e => .error e
  | .ok (md5Sum, sha256Sum, contentLength, reader') =>
    .ok { bucketName := bucketName
          objectName := objectName
          customHeader :=
            headerSet (headerSet (headerSet [] "Content-MD5" (base64Encode md5Sum))
              "X-Amz-Content-Sha256" (hexEncode sha256Sum)) "User-Agent" appUserAgent
          contentLength := contentLength
          contentBody := reader' }

/-- The body of an `http.Response`: `stream = none` models a nil body
interface, `pos` the consumed prefix, `fullReads` the number of
completed full reads of the stream. -/
structure RespBody where
  stream : Option (List Nat)
  pos : Nat
  fullReads : Nat
  deriving DecidableEq, Inhabited

/-- An `http.Response` as consumed by `putObjectVerify`. -/
structure HttpResponse where
  statusCode : Int
  header : Headers
  body : RespBody
  deriving DecidableEq, Inhabited

/-- Result of a verification call: success, a Go error value, or a Go
runtime panic. -/
inductive VerifyOutcome where
  | ok
  | err (msg : String)
  | panicked
  deriving DecidableEq, Inhabited

/-- `verifyStatusPutObject`: nil when the codes match, otherwise an
error naming the wanted (expected) and got (actual) codes. -/
def verifyStatusPutObject (respStatusCode expectedStatusCode : Int) : Option String :=
  if respStatusCode ≠ expectedStatusCode then
    some ("Unexpected Response Status Code: wanted " ++ toString expectedStatusCode ++
      ", got " ++ toString respStatusCode)
  else
    none

/-- `verifyBodyPutObject`: `ioutil.ReadAll` the body (a nil reader makes
`ReadAll` call through a nil interface, a Go runtime panic), then demand
the bytes read are empty, else error with the received content. The
returned `RespBody` is the body's post-state. -/
def verifyBodyPutObject (b : RespBody) : VerifyOutcome × RespBody :=
  match b.stream with
  | none => (.panicked, b)
  | some s =>
    let body := s.drop b.pos
    let b' : RespBody := { stream := some s, pos := s.length, fullReads := b.fullReads + 1 }
    if body = [] then (.ok, b')
    else (.err ("Unexpected Body Recieved: expected empty body but recieved: " ++
      bytesToString body), b')

/-- `verifyHeaderPutObject`: delegate to the external collaborator
`verifyStandardHeaders` (passed as `stdHdr`, it lives in another file)
and return its verdict. -/
def verifyHeaderPutObject (stdHdr : Headers → Option String) (header : Headers) :
    Option String :=
  match stdHdr header with
  | some e => some e
  | none => none

/-- `putObjectVerify`: header check, then status check, then body check,
returning at the first failure. Only the body check touches the body;
the body's post-state is returned alongside the verdict. -/
def putObjectVerify (stdHdr : Headers → Option String) (res : HttpResponse)
    (expectedStatusCode : Int) : VerifyOutcome × RespBody :=
  match verifyHeaderPutObject stdHdr res.header with
  | some e => (.err e, res.body)
  | none =>
    match verifyStatusPutObject res.statusCode expectedStatusCode with
    | some e => (.err e, res.body)
    | none => verifyBodyPutObject res.body

/-- `ObjectInfo` as used here: the object key and its body bytes. -/
structure ObjectInfo where
  Key : String
  Body : List Nat
  deriving DecidableEq, Inhabited

/-- A bucket from the `s3verifyBuckets` registry; only its name is used. -/
structure BucketInfo where
  Name : String
  deriving DecidableEq, Inhabited

/-- The external collaborators a PutObject step calls: the standard
header validator and `config.execRequest "PUT"` (the transport, whose
error is a `TransportError`). -/
structure StepEnv where
  stdHdr : Headers → Option String
  transport : Request → Except String HttpResponse

/-- Outcome of running a Go function that can panic: either a runtime
panic (which crashes the run) or a normal return value. -/
inductive GoOutcome where
  | panicked
  | ret (b : Bool)
  deriving DecidableEq, Inhabited

/-- Result of one build→execute→verify sequence for a single object. -/
inductive PutResult where
  | passed (o : ObjectInfo)
  | failed
  | panicked
  deriving DecidableEq, Inhabited

/-- The build→execute→verify sequence shared verbatim by the body of
`mainPutObjectPrepared` and each iteration of `mainPutObjectUnPrepared`:
`newPutObjectReq`, then `config.execRequest "PUT"`, then
`putObjectVerify` against status 200; any error gives `failed`
(the Go code prints and returns false), a panic inside verification
propagates. On success the appended descriptor is `⟨key, body⟩`. -/
def putOneObject (h : HashAlg) (env : StepEnv) (bucketName key : String)
    (body : List Nat) : PutResult :=
  match newPutObjectReq h bucketName key body with
  | .error _ => .failed
  | .ok req =>
    match env.transport req with
    | .error _ => .failed
    | .ok res =>
      match putObjectVerify env.stdHdr res 200 with
      | (.ok, _) => .passed ⟨key, body⟩
      | (.err _, _) => .failed
      | (.panicked, _) => .panicked

/-- Key of the `i`-th object of the unprepared loop:
`"s3verify/put/object/" + strconv.Itoa(i)`. -/
def keyFor (i : Nat) : String := "s3verify/put/object/" ++ toString i

/-- The `for i := 0; i < 101; i++` loop of `mainPutObjectUnPrepared`,
written with the remaining iteration count `n` explicit (`i + n` stays
equal to the loop bound). `objs` is the `s3verifyObjects` registry; the
third component is instrumentation recording, in order, the
(bucket, key) pair of every iteration actually attempted. A failing
iteration returns false immediately with the registry unchanged by that
iteration. -/
def putLoop (h : HashAlg) (env : StepEnv) (bn : String) (bodies : Nat → List Nat) :
    Nat → Nat → List ObjectInfo → List (String × String) →
    GoOutcome × List ObjectInfo × List (String × String)
  | _, 0, objs, tr => (.ret true, objs, tr)
  | i, Nat.succ n, objs, tr =>
    match putOneObject h env bn (keyFor i) (bodies i) with
    | .passed o => putLoop h env bn bodies (i + 1) n (objs ++ [o]) (tr ++ [(bn, keyFor i)])
    | .failed => (.ret false, objs, tr ++ [(bn, keyFor i)])
    | .panicked => (.panicked, objs, tr ++ [(bn, keyFor i)])

/-- `mainPutObjectPrepared`: index `s3verifyBuckets[0]` (a Go panic when
the bucket registry is empty), build one object with the fixed key
`"s3verify/made/put/object"` and the random `body` (randString is the
external random generator, passed as the `body` parameter), run the
build→execute→verify sequence, and append to the registry only on
success. Returns the outcome, the new registry and the attempt trace. -/
def mainPutObjectPrepared (h : HashAlg) (env : StepEnv) (buckets : List BucketInfo)
    (body : List Nat) (objs : List ObjectInfo) :
    GoOutcome × List ObjectInfo × List (String × String) :=
  match buckets with
  | [] => (.panicked, objs, [])
  | bucket :: _ =>
    match putOneObject h env bucket.Name "s3verify/made/put/object" body with
    | .passed o => (.ret true, objs ++ [o], [(bucket.Name, "s3verify/made/put/object")])
    | .failed => (.ret false, objs, [(bucket.Name, "s3verify/made/put/object")])
    | .panicked => (.panicked, objs, [(bucket.Name, "s3verify/made/put/object")])

/-- `mainPutObjectUnPrepared`: index `s3verifyBuckets[0]` (a Go panic
when the bucket registry is empty) and run the 101-iteration upload loop
against that single bucket. `bodies i` is the random 60-byte body drawn
for iteration `i`. -/
def mainPutObjectUnPrepared (h : HashAlg) (env : StepEnv) (buckets : List BucketInfo)
    (bodies : Nat → List Nat) (objs : List ObjectInfo) :
    GoOutcome × List ObjectInfo × List (String × String) :=
  match buckets with
  | [] => (.panicked, objs, [])
  | bucket :: _ => putLoop h env bucket.Name bodies 0 101 objs []

/-- String containment, as "the error message contains X": some prefix
and suffix surround the needle. -/
def strContains (hay needle : String) : Prop :=
  ∃ s t, s ++ needle ++ t = hay

/-- Extract the request from an always-successful construction. -/
def exOk (x : Except String Request) : Request :=
  match x with
  | .ok r => r
  | .error _ => default

/-- A trivial digest pair used to instantiate the hash parameter in
concrete evaluations. -/
def trivHash : HashAlg := ⟨fun _ => [], fun _ => []⟩

/-- A stub 200 response with standard headers accepted and empty body. -/
def okResponse : HttpResponse := { statusCode := 200, header := [], body := ⟨some [], 0, 0⟩ }

/-- A stub 403 response, otherwise well-formed. -/
def badResponse : HttpResponse := { statusCode := 403, header := [], body := ⟨some [], 0, 0⟩ }

/-- A 200 response whose body is a nil interface value. -/
def nilBodyResp : HttpResponse := { statusCode := 200, header := [], body := ⟨none, 0, 0⟩ }

/-- Stub environment: header validator accepts, transport always
returns `okResponse`. -/
def stubEnvOK : StepEnv := ⟨fun _ => none, fun _ => .ok okResponse⟩

/-- Stub environment whose transport returns 403 exactly for the third
loop object (`keyFor 2`) and 200 otherwise. -/
def stubEnvFail2 : StepEnv :=
  ⟨fun _ => none, fun req => if req.objectName = keyFor 2 then .ok badResponse else .ok okResponse⟩

/-- C1: the digests declared in the headers of a request built by
`newPutObjectReq(b, o, P)` are the base64 of the checksum digest of `P`
(`Content-MD5`) and the hex of the content digest of `P`
(`X-Amz-Content-Sha256`), and reading the attached body stream from its
current position yields exactly `P`. -/
theorem newPutObjectReq_digests_roundtrip (h : HashAlg) (b o : String) (P : List Nat)
    (req : Request) (heq : newPutObjectReq h b o P = .ok req) :
    headerGet req.customHeader "Content-MD5" = some (base64Encode (h.md5 P)) ∧
    headerGet req.customHeader "X-Amz-Content-Sha256" = some (hexEncode (h.sha256 P)) ∧
    readAllReader req.contentBody = P := by
  unfold newPutObjectReq computeHash at heq
  simp only [Except.ok.injEq] at heq
  subst heq
  exact ⟨rfl, rfl, rfl⟩

/-- Witness for C1 at a concrete payload. -/
theorem newPutObjectReq_digests_roundtrip_witness :
    headerGet (exOk (newPutObjectReq trivHash "b1" "k1" [1, 2, 3])).customHeader
        "Content-MD5" = some (base64Encode (trivHash.md5 [1, 2, 3])) ∧
    headerGet (exOk (newPutObjectReq trivHash "b1" "k1" [1, 2, 3])).customHeader
        "X-Amz-Content-Sha256" = some (hexEncode (trivHash.sha256 [1, 2, 3])) ∧
    readAllReader (exOk (newPutObjectReq trivHash "b1" "k1" [1, 2, 3])).contentBody =
      [1, 2, 3] :=
  newPutObjectReq_digests_roundtrip trivHash "b1" "k1" [1, 2, 3] _ rfl

/-- C2: the `contentLength` recorded in a request built by
`newPutObjectReq(b, o, P)` is exactly the byte length of `P`. -/
theorem newPutObjectReq_contentLength (h : HashAlg) (b o : String) (P : List Nat)
    (req : Request) (heq : newPutObjectReq h b o P = .ok req) :
    req.contentLength = P.length := by
  unfold newPutObjectReq computeHash at heq
  simp only [Except.ok.injEq] at heq
  subst heq
  rfl

/-- Witness for C2 at the empty payload. -/
theorem newPutObjectReq_contentLength_witness :
    (exOk (newPutObjectReq trivHash "b1" "k1" [])).contentLength = ([] : List Nat).length :=
  newPutObjectReq_contentLength trivHash "b1" "k1" [] _ rfl

/-- C5: the status sub-check returns nil exactly on equal codes, and on
a mismatch its error message contains both the expected and the actual
status code. -/
theorem verifyStatusPutObject_spec (r e : Int) :
    (r = e → verifyStatusPutObject r e = none) ∧
    (r ≠ e → ∃ m, verifyStatusPutObject r e = some m ∧
      strContains m (toString e) ∧ strContains m (toString r)) := by
  constructor
  · intro h
    simp [verifyStatusPutObject, h]
  · intro h
    refine ⟨"Unexpected Response Status Code: wanted " ++ toString e ++ ", got " ++ toString r,
      by simp [verifyStatusPutObject, h], ?_, ?_⟩
    · exact ⟨"Unexpected Response Status Code: wanted ", ", got " ++ toString r,
        by rw [← String.append_assoc]⟩
    · refine ⟨"Unexpected Response Status Code: wanted " ++ toString e ++ ", got ", "", ?_⟩
      rw [String.append_empty]

/-- Witness for C5: both directions at concrete codes 200/403. -/
theorem verifyStatusPutObject_spec_witness :
    verifyStatusPutObject 200 200 = none ∧
    (∃ m, verifyStatusPutObject 403 200 = some m ∧
      strContains m (toString (200 : Int)) ∧ strContains m (toString (403 : Int))) :=
  ⟨(verifyStatusPutObject_spec 200 200).1 rfl,
   (verifyStatusPutObject_spec 403 200).2 (by decide)⟩

/-- C8 amended: `newPutObjectReq` performs no validation of the bucket
or object name: for every pair of names, the empty string included, and
every payload it returns a well-formed `Request` carrying those names
without error. -/
theorem newPutObjectReq_no_identifier_validation (h : HashAlg) (b o : String)
    (P : List Nat) :
    ∃ req, newPutObjectReq h b o P = .ok req ∧ req.bucketName = b ∧ req.objectName = o :=
  ⟨_, rfl, rfl, rfl⟩

/-- C8 counterexample: with both identifiers empty the construction
still succeeds, contradicting the claim that it must fail with a
construction error. -/
theorem newPutObjectReq_empty_names_ok_counterexample :
    ∃ req, newPutObjectReq trivHash "" "" [] = .ok req :=
  ⟨_, rfl⟩

/-- C9 amended: with an empty bucket registry both PutObject modes
panic (the Go slice index `s3verifyBuckets[0]` is out of range) before
any request is attempted, leaving the object registry unchanged; the
step does not report a graceful failure. -/
theorem mainPutObject_empty_registry_panics (h : HashAlg) (env : StepEnv)
    (pbody : List Nat) (bodies : Nat → List Nat) (objs : List ObjectInfo) :
    mainPutObjectPrepared h env [] pbody objs = (.panicked, objs, []) ∧
    mainPutObjectUnPrepared h env [] bodies objs = (.panicked, objs, []) :=
  ⟨rfl, rfl⟩

/-- C9 counterexample: on an empty bucket registry the outcome is a
runtime panic, not the `Failed` report (`return false`) the claim
requires. -/
theorem mainPutObject_empty_registry_counterexample :
    (mainPutObjectPrepared trivHash stubEnvOK [] [] []).1 = .panicked ∧
    (mainPutObjectPrepared trivHash stubEnvOK [] [] []).1 ≠ .ret false ∧
    (mainPutObjectUnPrepared trivHash stubEnvOK [] (fun _ => []) []).1 = .panicked := by
  refine ⟨rfl, ?_, rfl⟩
  decide

/-- C4: `putObjectVerify` runs the header, status and body checks in
that fixed order, returning the first failing check's error without
running the later checks (the body is untouched — same `RespBody` state
— when the header or status check fails), returns ok when all three
pass, and the header check's verdict is exactly the external standard
header validator's verdict. -/
theorem putObjectVerify_pipeline_order (f : Headers → Option String)
    (res : HttpResponse) (exp : Int) :
    (verifyHeaderPutObject f res.header = f res.header) ∧
    (∀ e, f res.header = some e → putObjectVerify f res exp = (.err e, res.body)) ∧
    (∀ e, f res.header = none → verifyStatusPutObject res.statusCode exp = some e →
      putObjectVerify f res exp = (.err e, res.body)) ∧
    (f res.header = none → verifyStatusPutObject res.statusCode exp = none →
      putObjectVerify f res exp = verifyBodyPutObject res.body) ∧
    (f res.header = none → res.statusCode = exp →
      (verifyBodyPutObject res.body).1 = .ok → (putObjectVerify f res exp).1 = .ok) := by
  refine ⟨?_, ?_, ?_, ?_, ?_⟩
  · cases hf : f res.header <;> simp [verifyHeaderPutObject, hf]
  · intro e he
    simp [putObjectVerify, verifyHeaderPutObject, he]
  · intro e hn hs
    simp [putObjectVerify, verifyHeaderPutObject, hn, hs]
  · intro hn hs
    simp [putObjectVerify, verifyHeaderPutObject, hn, hs]
  · intro hn hst hb
    simp [putObjectVerify, verifyHeaderPutObject, hn, verifyStatusPutObject, hst, hb]

/-- Witness for C4: a rejecting header validator short-circuits with its
own error and an untouched body, and an all-green response verifies ok. -/
theorem putObjectVerify_pipeline_order_witness :
    putObjectVerify (fun _ => some "missing standard header") okResponse 200 =
      (.err "missing standard header", okResponse.body) ∧
    (putObjectVerify (fun _ => none) okResponse 200).1 = .ok :=
  ⟨(putObjectVerify_pipeline_order (fun _ => some "missing standard header") okResponse
      200).2.1 "missing standard header" rfl,
   (putObjectVerify_pipeline_order (fun _ => none) okResponse 200).2.2.2.2 rfl rfl rfl⟩

/-- C6: on a readable (non-nil) body the body check reads the stream to
its end and returns ok exactly when the remaining content is empty; on
non-empty content it errors with a message containing the received
content, and a response with matching status, accepted headers and an
empty body makes the whole verification succeed. -/
theorem verifyBodyPutObject_empty_iff (b : RespBody) (s : List Nat)
    (hs : b.stream = some s) :
    (s.drop b.pos = [] →
      verifyBodyPutObject b = (.ok, ⟨some s, s.length, b.fullReads + 1⟩)) ∧
    (s.drop b.pos ≠ [] → ∃ m,
      verifyBodyPutObject b = (.err m, ⟨some s, s.length, b.fullReads + 1⟩) ∧
      strContains m (bytesToString (s.drop b.pos))) ∧
    (∀ f res exp, res.body = b → f res.header = none → res.statusCode = exp →
      s.drop b.pos = [] → (putObjectVerify f res exp).1 = .ok) := by
  refine ⟨?_, ?_, ?_⟩
  · intro hd
    simp [verifyBodyPutObject, hs, hd]
  · intro hd
    refine ⟨"Unexpected Body Recieved: expected empty body but recieved: " ++
      bytesToString (s.drop b.pos), by simp [verifyBodyPutObject, hs, hd], ?_⟩
    refine ⟨"Unexpected Body Recieved: expected empty body but recieved: ", "", ?_⟩
    rw [String.append_empty]
  · intro f res exp hbody hn hst hd
    simp [putObjectVerify, verifyHeaderPutObject, hn, verifyStatusPutObject, hst, hbody,
      verifyBodyPutObject, hs, hd]

/-- Witness for C6: a one-byte body `"A"` is rejected with a message
containing it; an empty body passes the body check and full verify. -/
theorem verifyBodyPutObject_empty_iff_witness :
    (∃ m, verifyBodyPutObject ⟨some [65], 0, 0⟩ = (.err m, ⟨some [65], 1, 1⟩) ∧
      strContains m (bytesToString [65])) ∧
    verifyBodyPutObject ⟨some [], 0, 0⟩ = (.ok, ⟨some [], 0, 1⟩) ∧
    (putObjectVerify (fun _ => none) okResponse 200).1 = .ok :=
  ⟨(verifyBodyPutObject_empty_iff ⟨some [65], 0, 0⟩ [65] rfl).2.1 (by decide),
   (verifyBodyPutObject_empty_iff ⟨some [], 0, 0⟩ [] rfl).1 rfl,
   (verifyBodyPutObject_empty_iff ⟨some [], 0, 0⟩ [] rfl).2.2 (fun _ => none) okResponse
     200 rfl rfl rfl rfl⟩

/-- C7 amended: `putObjectVerify` performs at most one full read of the
body stream — the final full-read count exceeds the initial one by at
most one, so the body is never consumed twice, on failure paths
included — but a nil body is not treated as zero-length: when the
header and status checks pass on a nil body, the `ioutil.ReadAll` call
reads through a nil interface and the verification panics. -/
theorem putObjectVerify_single_read_nil_panics (f : Headers → Option String)
    (res : HttpResponse) (exp : Int) :
    ((putObjectVerify f res exp).2.fullReads ≤ res.body.fullReads + 1) ∧
    (res.body.stream = none → f res.header = none → res.statusCode = exp →
      putObjectVerify f res exp = (.panicked, res.body)) := by
  constructor
  · unfold putObjectVerify
    cases hf : verifyHeaderPutObject f res.header with
    | some e => simp
    | none =>
      cases hst : verifyStatusPutObject res.statusCode exp with
      | some e => simp
      | none =>
        simp only []
        unfold verifyBodyPutObject
        cases hb : res.body.stream with
        | none => simp
        | some s =>
          by_cases hd : s.drop res.body.pos = [] <;> simp [hd]
  · intro h1 h2 h3
    simp [putObjectVerify, verifyHeaderPutObject, h2, verifyStatusPutObject, h3,
      verifyBodyPutObject, h1]

/-- Witness for C7's amended statement at a concrete nil-body response. -/
theorem putObjectVerify_single_read_nil_panics_witness :
    ((putObjectVerify (fun _ => none) badResponse 200).2.fullReads ≤
      badResponse.body.fullReads + 1) ∧
    putObjectVerify (fun _ => none) nilBodyResp 200 = (.panicked, nilBodyResp.body) :=
  ⟨(putObjectVerify_single_read_nil_panics (fun _ => none) badResponse 200).1,
   (putObjectVerify_single_read_nil_panics (fun _ => none) nilBodyResp 200).2 rfl rfl rfl⟩

/-- C7 counterexample: a response whose body is a nil interface, with
accepted headers and the expected status, makes `putObjectVerify`
panic — it is not treated as a zero-length body (which would verify
ok), contradicting the claim's no-panic guarantee. -/
theorem putObjectVerify_nil_body_panics_counterexample :
    (putObjectVerify (fun _ => some "hdr") nilBodyResp 200).1 ≠ .panicked ∧
    (putObjectVerify (fun _ => Option.none) nilBodyResp 200).1 = .panicked := by
  constructor
  · decide
  · decide

/-- Mapping over `List.range (f + 1)` peels off index 0 and shifts. -/
theorem range_succ_shift {α : Type} (g : Nat → α) (f : Nat) :
    (List.range (f + 1)).map g = g 0 :: (List.range f).map (fun j => g (j + 1)) := by
  rw [List.range_succ_eq_map, List.map_cons, List.map_map]
  rfl

/-- If the first `f` iterations of the upload loop (starting at index
`i`) pass and iteration `i + f` fails, the loop returns false with
exactly the `f` successful descriptors appended and exactly `f + 1`
iterations attempted. -/
theorem putLoop_first_fail (h : HashAlg) (env : StepEnv) (bn : String)
    (bodies : Nat → List Nat) :
    ∀ (f i n : Nat) (objs : List ObjectInfo) (tr : List (String × String)),
    f < n →
    (∀ j ∈ List.range f, putOneObject h env bn (keyFor (i + j)) (bodies (i + j)) =
      .passed ⟨keyFor (i + j), bodies (i + j)⟩) →
    putOneObject h env bn (keyFor (i + f)) (bodies (i + f)) = .failed →
    putLoop h env bn bodies i n objs tr =
      (.ret false,
       objs ++ (List.range f).map (fun j => ⟨keyFor (i + j), bodies (i + j)⟩),
       tr ++ (List.range (f + 1)).map (fun j => (bn, keyFor (i + j)))) := by
  intro f
  induction f with
  | zero =>
    intro i n objs tr hf _ hfail
    cases n with
    | zero => exact absurd hf (by omega)
    | succ m =>
      simp only [Nat.add_zero] at hfail
      simp only [putLoop, hfail]
      simp [List.range_succ]
  | succ f ih =>
    intro i n objs tr hf hsucc hfail
    cases n with
    | zero => exact absurd hf (by omega)
    | succ m =>
      have h0 : putOneObject h env bn (keyFor i) (bodies i) =
          .passed ⟨keyFor i, bodies i⟩ := by
        have := hsucc 0 (List.mem_range.mpr (Nat.succ_pos f))
        simpa using this
      have hshift : ∀ j, i + 1 + j = i + (j + 1) := fun j => by omega
      have hsucc' : ∀ j ∈ List.range f,
          putOneObject h env bn (keyFor (i + 1 + j)) (bodies (i + 1 + j)) =
          .passed ⟨keyFor (i + 1 + j), bodies (i + 1 + j)⟩ := by
        intro j hj
        rw [hshift j]
        exact hsucc (j + 1) (List.mem_range.mpr (by
          have := List.mem_range.mp hj
          omega))
      have hfail' : putOneObject h env bn (keyFor (i + 1 + f)) (bodies (i + 1 + f)) =
          .failed := by
        rw [hshift f]
        exact hfail
      have hlt : f < m := by omega
      have step := ih (i + 1) m (objs ++ [⟨keyFor i, bodies i⟩])
        (tr ++ [(bn, keyFor i)]) hlt hsucc' hfail'
      have goal1 : putLoop h env bn bodies i (m + 1) objs tr =
          putLoop h env bn bodies (i + 1) m (objs ++ [⟨keyFor i, bodies i⟩])
            (tr ++ [(bn, keyFor i)]) := by
        simp only [putLoop, h0]
      rw [goal1, step]
      simp only [Prod.mk.injEq, true_and]
      constructor
      · rw [range_succ_shift (fun j => (⟨keyFor (i + j), bodies (i + j)⟩ : ObjectInfo)) f,
          List.append_assoc, List.singleton_append]
        congr 1
        congr 1
        exact (List.map_congr_left fun j _ => by rw [hshift j]).symm
      · rw [range_succ_shift (fun j => ((bn, keyFor (i + j)) : String × String)) (f + 1),
          List.append_assoc, List.singleton_append]
        congr 1
        congr 1
        exact (List.map_congr_left fun j _ => by rw [hshift j]).symm

/-- If every iteration of the upload loop passes, the loop returns true
having appended all `n` descriptors, in order, and attempted exactly
`n` iterations. -/
theorem putLoop_all_pass (h : HashAlg) (env : StepEnv) (bn : String)
    (bodies : Nat → List Nat) :
    ∀ (n i : Nat) (objs : List ObjectInfo) (tr : List (String × String)),
    (∀ j ∈ List.range n, putOneObject h env bn (keyFor (i + j)) (bodies (i + j)) =
      .passed ⟨keyFor (i + j), bodies (i + j)⟩) →
    putLoop h env bn bodies i n objs tr =
      (.ret true,
       objs ++ (List.range n).map (fun j => ⟨keyFor (i + j), bodies (i + j)⟩),
       tr ++ (List.range n).map (fun j => (bn, keyFor (i + j)))) := by
  intro n
  induction n with
  | zero =>
    intro i objs tr _
    simp [putLoop]
  | succ m ih =>
    intro i objs tr hsucc
    have h0 : putOneObject h env bn (keyFor i) (bodies i) =
        .passed ⟨keyFor i, bodies i⟩ := by
      have := hsucc 0 (List.mem_range.mpr (Nat.succ_pos m))
      simpa using this
    have hshift : ∀ j, i + 1 + j = i + (j + 1) := fun j => by omega
    have hsucc' : ∀ j ∈ List.range m,
        putOneObject h env bn (keyFor (i + 1 + j)) (bodies (i + 1 + j)) =
        .passed ⟨keyFor (i + 1 + j), bodies (i + 1 + j)⟩ := by
      intro j hj
      rw [hshift j]
      exact hsucc (j + 1) (List.mem_range.mpr (by
        have := List.mem_range.mp hj
        omega))
    have step := ih (i + 1) (objs ++ [⟨keyFor i, bodies i⟩]) (tr ++ [(bn, keyFor i)]) hsucc'
    have goal1 : putLoop h env bn bodies i (m + 1) objs tr =
        putLoop h env bn bodies (i + 1) m (objs ++ [⟨keyFor i, bodies i⟩])
          (tr ++ [(bn, keyFor i)]) := by
      simp only [putLoop, h0]
    rw [goal1, step]
    simp only [Prod.mk.injEq, true_and]
    constructor
    · rw [range_succ_shift (fun j => (⟨keyFor (i + j), bodies (i + j)⟩ : ObjectInfo)) m,
        List.append_assoc, List.singleton_append]
      congr 1
      congr 1
      exact (List.map_congr_left fun j _ => by rw [hshift j]).symm
    · rw [range_succ_shift (fun j => ((bn, keyFor (i + j)) : String × String)) m,
        List.append_assoc, List.singleton_append]
      congr 1
      congr 1
      exact (List.map_congr_left fun j _ => by rw [hshift j]).symm

/-- Every attempt the upload loop records targets the loop's single
bucket `bn`. -/
theorem putLoop_trace_bucket (h : HashAlg) (env : StepEnv) (bn : String)
    (bodies : Nat → List Nat) :
    ∀ (n i : Nat) (objs : List ObjectInfo) (tr : List (String × String)),
    (∀ e ∈ tr, e.1 = bn) →
    ∀ e ∈ (putLoop h env bn bodies i n objs tr).2.2, e.1 = bn := by
  intro n
  induction n with
  | zero =>
    intro i objs tr htr
    simpa [putLoop] using htr
  | succ m ih =>
    intro i objs tr htr
    have htr' : ∀ e ∈ tr ++ [(bn, keyFor i)], e.1 = bn := by
      intro e he
      rcases List.mem_append.mp he with h1 | h2
      · exact htr e h1
      · rcases List.mem_singleton.mp h2 with rfl
        rfl
    cases hcase : putOneObject h env bn (keyFor i) (bodies i) with
    | passed o =>
      have := ih (i + 1) (objs ++ [o]) (tr ++ [(bn, keyFor i)]) htr'
      simpa [putLoop, hcase] using this
    | failed =>
      simpa [putLoop, hcase] using htr'
    | panicked =>
      simpa [putLoop, hcase] using htr'

/-- A passing build→execute→verify sequence always yields exactly the
descriptor built from its key and body. -/
theorem putOneObject_passed (h : HashAlg) (env : StepEnv) (bn k : String)
    (b : List Nat) (o : ObjectInfo) :
    putOneObject h env bn k b = .passed o → o = ⟨k, b⟩ := by
  intro hp
  unfold putOneObject at hp
  repeat' split at hp
  all_goals simp_all

/-- C3: a descriptor is appended to the registry exactly when the whole
step (build, transport execution, response verification) passes — on a
failing prepared step the registry is untouched — and in the unprepared
bounded loop, when the first `f` iterations pass and iteration `f`
(1-indexed: iteration `k = f + 1` is the first to fail) fails, the loop
stops with exactly `f` descriptors appended (registry length grows by
exactly `f`), having attempted exactly `f + 1` iterations, so no later
iteration is ever attempted. -/
theorem putObject_registry_append_iff_success (h : HashAlg) (env : StepEnv)
    (b0 : BucketInfo) (bs : List BucketInfo) (pbody : List Nat)
    (bodies : Nat → List Nat) (f n : Nat) (objs : List ObjectInfo)
    (hf : f < n)
    (hsucc : ∀ j ∈ List.range f, putOneObject h env b0.Name (keyFor j) (bodies j) =
      .passed ⟨keyFor j, bodies j⟩)
    (hfail : putOneObject h env b0.Name (keyFor f) (bodies f) = .failed) :
    ((mainPutObjectPrepared h env (b0 :: bs) pbody objs).1 = .ret true →
      (mainPutObjectPrepared h env (b0 :: bs) pbody objs).2.1 =
        objs ++ [⟨"s3verify/made/put/object", pbody⟩]) ∧
    ((mainPutObjectPrepared h env (b0 :: bs) pbody objs).1 ≠ .ret true →
      (mainPutObjectPrepared h env (b0 :: bs) pbody objs).2.1 = objs) ∧
    (putLoop h env b0.Name bodies 0 n objs [] =
      (.ret false,
       objs ++ (List.range f).map (fun j => ⟨keyFor j, bodies j⟩),
       (List.range (f + 1)).map (fun j => (b0.Name, keyFor j)))) ∧
    ((objs ++ (List.range f).map fun j => (⟨keyFor j, bodies j⟩ : ObjectInfo)).length =
      objs.length + f) ∧
    (mainPutObjectUnPrepared h env (b0 :: bs) bodies objs =
      putLoop h env b0.Name bodies 0 101 objs []) := by
  have hz : ∀ j : Nat, 0 + j = j := fun j => by omega
  refine ⟨?_, ?_, ?_, ?_, rfl⟩
  · intro h1
    cases hcase : putOneObject h env b0.Name "s3verify/made/put/object" pbody with
    | passed o =>
      have ho := putOneObject_passed h env b0.Name "s3verify/made/put/object" pbody o hcase
      simp [mainPutObjectPrepared, hcase, ho]
    | failed =>
      simp [mainPutObjectPrepared, hcase] at h1
    | panicked =>
      simp [mainPutObjectPrepared, hcase] at h1
  · intro h1
    cases hcase : putOneObject h env b0.Name "s3verify/made/put/object" pbody with
    | passed o =>
      exact absurd (by simp [mainPutObjectPrepared, hcase]) h1
    | failed =>
      simp [mainPutObjectPrepared, hcase]
    | panicked =>
      simp [mainPutObjectPrepared, hcase]
  · have hsucc0 : ∀ j ∈ List.range f,
        putOneObject h env b0.Name (keyFor (0 + j)) (bodies (0 + j)) =
        .passed ⟨keyFor (0 + j), bodies (0 + j)⟩ := by
      intro j hj
      rw [hz j]
      exact hsucc j hj
    have hfail0 : putOneObject h env b0.Name (keyFor (0 + f)) (bodies (0 + f)) =
        .failed := by
      rw [hz f]
      exact hfail
    have := putLoop_first_fail h env b0.Name bodies f 0 n objs [] hf hsucc0 hfail0
    rw [this]
    simp only [Prod.mk.injEq, true_and, List.nil_append]
    constructor
    · congr 1
      exact List.map_congr_left fun j _ => by rw [hz j]
    · exact List.map_congr_left fun j _ => by rw [hz j]
  · simp

/-- Witness for C3: the spec's scenario — a 5-iteration loop with the
third execution failing (stub transport answers 403 for the third key) —
appends exactly 2 descriptors and attempts exactly 3 iterations, and a
passing prepared step appends its single descriptor. -/
theorem putObject_registry_append_iff_success_witness :
    (mainPutObjectPrepared trivHash stubEnvFail2 [⟨"b1"⟩] [] []).2.1 =
      [] ++ [⟨"s3verify/made/put/object", []⟩] ∧
    putLoop trivHash stubEnvFail2 "b1" (fun _ => []) 0 5 [] [] =
      (.ret false,
       [] ++ (List.range 2).map (fun j => ⟨keyFor j, []⟩),
       (List.range 3).map (fun j => ("b1", keyFor j))) := by
  have T := putObject_registry_append_iff_success trivHash stubEnvFail2 ⟨"b1"⟩ []
    [] (fun _ => []) 2 5 [] (by omega) (by decide) (by decide)
  exact ⟨T.1 (by decide), T.2.2.1⟩

set_option maxRecDepth 100000

set_option maxHeartbeats 2000000

/-- C10: both modes target only the first registered bucket: every
attempt of the unprepared loop goes to `buckets[0]`; when all of its
101 iterations pass, the 101 uploaded objects carry the keys
`"s3verify/put/object/" + i` for `i = 0..100` (one object per loop
index, all to that single bucket), those keys are pairwise distinct,
and the prepared mode's single attempt also targets `buckets[0]` with
its fixed key. -/
theorem putObject_first_bucket_only (h : HashAlg) (env : StepEnv) (b0 : BucketInfo)
    (bs : List BucketInfo) (bodies : Nat → List Nat) (pbody : List Nat)
    (objs : List ObjectInfo) :
    (∀ e ∈ (mainPutObjectUnPrepared h env (b0 :: bs) bodies objs).2.2, e.1 = b0.Name) ∧
    ((∀ j ∈ List.range 101, putOneObject h env b0.Name (keyFor j) (bodies j) =
        .passed ⟨keyFor j, bodies j⟩) →
      mainPutObjectUnPrepared h env (b0 :: bs) bodies objs =
        (.ret true,
         objs ++ (List.range 101).map (fun j => ⟨keyFor j, bodies j⟩),
         (List.range 101).map (fun j => (b0.Name, keyFor j)))) ∧
    ((List.range 101).map keyFor).Nodup ∧
    (∀ e ∈ (mainPutObjectPrepared h env (b0 :: bs) pbody objs).2.2,
      e = (b0.Name, "s3verify/made/put/object")) := by
  have hz : ∀ j : Nat, 0 + j = j := fun j => by omega
  refine ⟨?_, ?_, ?_, ?_⟩
  · intro e he
    exact putLoop_trace_bucket h env b0.Name bodies 101 0 objs [] (by simp) e he
  · intro hall
    have hall0 : ∀ j ∈ List.range 101,
        putOneObject h env b0.Name (keyFor (0 + j)) (bodies (0 + j)) =
        .passed ⟨keyFor (0 + j), bodies (0 + j)⟩ := by
      intro j hj
      rw [hz j]
      exact hall j hj
    have hloop := putLoop_all_pass h env b0.Name bodies 101 0 objs [] hall0
    have e1 : (List.range 101).map
        (fun j => (⟨keyFor (0 + j), bodies (0 + j)⟩ : ObjectInfo)) =
        (List.range 101).map (fun j => (⟨keyFor j, bodies j⟩ : ObjectInfo)) :=
      List.map_congr_left fun j _ => by rw [hz j]
    have e2 : (List.range 101).map
        (fun j => ((b0.Name, keyFor (0 + j)) : String × String)) =
        (List.range 101).map (fun j => ((b0.Name, keyFor j) : String × String)) :=
      List.map_congr_left fun j _ => by rw [hz j]
    show putLoop h env b0.Name bodies 0 101 objs [] = _
    rw [hloop, e1, e2]
    simp
  · decide
  · intro e he
    cases hcase : putOneObject h env b0.Name "s3verify/made/put/object" pbody with
    | passed o => simp_all [mainPutObjectPrepared]
    | failed => simp_all [mainPutObjectPrepared]
    | panicked => simp_all [mainPutObjectPrepared]

/-- Witness for C10: a stub transport that accepts everything drives
the full 101-iteration loop to success, uploading all 101 enumerated
keys to the single bucket `"b1"`; with the early-failing stub, a traced
attempt still targets `"b1"`, as does the prepared mode's attempt. -/
theorem putObject_first_bucket_only_witness :
    (mainPutObjectUnPrepared trivHash stubEnvOK [⟨"b1"⟩] (fun _ => []) [] =
      (.ret true,
       [] ++ (List.range 101).map (fun j => ⟨keyFor j, []⟩),
       (List.range 101).map (fun j => ("b1", keyFor j)))) ∧
    ("b1", keyFor 1).1 = "b1" ∧
    (("b1", "s3verify/made/put/object") : String × String) =
      ("b1", "s3verify/made/put/object") := by
  refine ⟨?_, ?_, ?_⟩
  · exact (putObject_first_bucket_only trivHash stubEnvOK ⟨"b1"⟩ [] (fun _ => []) []
      []).2.1 (by decide)
  · exact (putObject_first_bucket_only trivHash stubEnvFail2 ⟨"b1"⟩ [] (fun _ => []) []
      []).1 ("b1", keyFor 1) (by decide)
  · exact (putObject_first_bucket_only trivHash stubEnvOK ⟨"b1"⟩ [] (fun _ => []) []
      []).2.2.2 ("b1", "s3verify/made/put/object") (by decide)
